import Mathlib

/-!
Verification of the weekly usage-quota service implemented in `app.py`.

The embedding models the quota core of the program:
* `UsageRecord` mirrors the JSON objects `{"id": ..., "count": ..., "week_start": ...}`
  stored in `usage_data_cache`; Python integers become `Int`, timestamps become
  integer seconds.
* `AppState` is the pair of the in-memory cache list and the `data_changed` flag.
* `check_credit` and `use_credit` embed the bodies of the two Flask handlers
  (the part inside `cache_lock`, after identifier extraction).
* `SysState`, `persist_data_to_hub`, `load_initial_data` embed the persistence
  layer: the last successfully uploaded document, the dirty flag, and the number
  of attempted uploads; a publish cycle is modelled as one atomic step with a
  boolean saying whether `api.upload_file` raised.
-/

namespace App

/-- `USAGE_LIMIT = 5` from app.py. -/
def USAGE_LIMIT : Int := 5

/-- `one_week_seconds = 7 * 24 * 60 * 60` as computed in both handlers. -/
def one_week_seconds : Int := 7 * 24 * 60 * 60

/-- One entry of `usage_data_cache`: `{"id": ..., "count": ..., "week_start": ...}`. -/
structure UsageRecord where
  id : String
  count : Int
  week_start : Int
  deriving Repr, DecidableEq

/-- The in-memory state guarded by `cache_lock`: the record list
`usage_data_cache` and the `data_changed` event flag. -/
structure AppState where
  cache : List UsageRecord
  dirty : Bool
  deriving Repr, DecidableEq

/-- `next((user for user in usage_data_cache if user.get('id') == user_id), None)`:
first record whose `id` equals `user_id`. -/
def findRecord (cache : List UsageRecord) (uid : String) : Option UsageRecord :=
  cache.find? (fun r => r.id = uid)

/-- Replace the first record whose `id` equals `uid` (the Python code mutates
that dict in place inside the list). -/
def updateFirst (cache : List UsageRecord) (uid : String) (r : UsageRecord) :
    List UsageRecord :=
  match cache with
  | [] => []
  | x :: xs => if x.id = uid then r :: xs else x :: updateFirst xs uid r

/-- The lazy rolling-window reset both handlers perform on the found record:
`if user_record.get('week_start', 0) < (now - one_week_seconds): count = 0;
week_start = now`. -/
def resetRecord (now : Int) (r : UsageRecord) : UsageRecord :=
  if r.week_start < now - one_week_seconds then
    { r with count := 0, week_start := now }
  else r

/-- Whether the reset branch fires for this record at time `now`. -/
def resetFires (now : Int) (r : UsageRecord) : Bool :=
  r.week_start < now - one_week_seconds

/-- The JSON body returned by `/api/check-credit`. -/
structure CheckResult where
  credits_remaining : Int
  limit_reached : Bool
  reset_timestamp : Int
  deriving Repr, DecidableEq

/-- Body of the `check_credit` handler inside `cache_lock` (app.py lines
271-287): find the record, lazily reset it, compute
`credits_remaining = max(0, USAGE_LIMIT - count)`, and report
`reset_timestamp = week_start + one_week_seconds` only when no credit remains.
With no record, the defaults `(USAGE_LIMIT, False, 0)` are returned and
nothing is touched. -/
def check_credit (uid : String) (now : Int) (s : AppState) :
    CheckResult × AppState :=
  match findRecord s.cache uid with
  | none =>
      ({ credits_remaining := USAGE_LIMIT, limit_reached := false,
         reset_timestamp := 0 }, s)
  | some r0 =>
      let didReset := resetFires now r0
      let r1 := resetRecord now r0
      let cache1 := if didReset then updateFirst s.cache uid r1 else s.cache
      let dirty1 := s.dirty || didReset
      let credits_remaining := max 0 (USAGE_LIMIT - r1.count)
      if credits_remaining = 0 then
        ({ credits_remaining := 0, limit_reached := true,
           reset_timestamp := r1.week_start + one_week_seconds },
         { cache := cache1, dirty := dirty1 })
      else
        ({ credits_remaining := credits_remaining, limit_reached := false,
           reset_timestamp := 0 },
         { cache := cache1, dirty := dirty1 })

/-- The JSON body returned by `/api/use-credit`: either
`{"status": "success", "credits_remaining": ...}` or
`{"status": "limit_reached", "credits_remaining": 0, "reset_timestamp": ...}`. -/
inductive UseResult where
  | success (credits_remaining : Int)
  | limit_reached (credits_remaining : Int) (reset_timestamp : Int)
  deriving Repr, DecidableEq

/-- `true` exactly on `success` results. -/
def UseResult.isSuccess : UseResult → Bool
  | .success _ => true
  | .limit_reached _ _ => false

/-- Body of the `use_credit` handler inside `cache_lock` (app.py lines
296-315): find the record, lazily reset it; if `count >= USAGE_LIMIT` return
`limit_reached` without touching `count` or the flag; otherwise increment
`count` and set `data_changed`.  With no record, append
`{"id": uid, "count": 1, "week_start": now}` and set the flag. -/
def use_credit (uid : String) (now : Int) (s : AppState) :
    UseResult × AppState :=
  match findRecord s.cache uid with
  | some r0 =>
      let didReset := resetFires now r0
      let r1 := resetRecord now r0
      let cache1 := if didReset then updateFirst s.cache uid r1 else s.cache
      if USAGE_LIMIT ≤ r1.count then
        (.limit_reached 0 (r1.week_start + one_week_seconds),
         { s with cache := cache1 })
      else
        let r2 := { r1 with count := r1.count + 1 }
        (.success (USAGE_LIMIT - r2.count),
         { cache := updateFirst cache1 uid r2, dirty := true })
  | none =>
      let r : UsageRecord := { id := uid, count := 1, week_start := now }
      (.success (USAGE_LIMIT - 1),
       { cache := s.cache ++ [r], dirty := true })

/-! ### Persistence layer -/

/-- Process-wide state relevant to persistence: the cache state, the content of
the remote document as last successfully uploaded, and how many uploads
were attempted (`api.upload_file` calls, successful or not). -/
structure SysState where
  app : AppState
  remote : List UsageRecord
  attempts : Nat
  deriving Repr, DecidableEq

/-- One publish cycle, `persist_data_to_hub` (app.py lines 90-124), modelled as
an atomic step.  `hasApi` is whether `api` is non-`None`; `uploadFails` is
whether `api.upload_file` raises.  If the flag is clear or there is no api
client the cycle returns at once.  Otherwise it snapshots the cache, clears
the flag, and uploads the snapshot; on failure the `except` block re-sets the
flag and the remote document is left as it was. -/
def persist_data_to_hub (hasApi : Bool) (uploadFails : Bool) (s : SysState) :
    SysState :=
  if s.app.dirty = false ∨ hasApi = false then s
  else
    let snapshot := s.app.cache
    if uploadFails then
      { s with app := { s.app with dirty := true }, attempts := s.attempts + 1 }
    else
      { s with app := { s.app with dirty := false },
               remote := snapshot, attempts := s.attempts + 1 }

/-- What the startup fetch of the remote document produced, covering every
path through the `try` block of `load_initial_data` (app.py lines 57-88). -/
inductive FetchOutcome where
  | absent
  | transportError
  | emptyContent
  | malformed
  | ok (records : List UsageRecord)
  deriving Repr, DecidableEq

/-- The exceptions the `except` clauses of `load_initial_data` distinguish. -/
inductive PyError where
  | jsonDecode
  | notFound
  | other
  deriving Repr, DecidableEq

/-- The `try` block of `load_initial_data`: download and read the document,
treat empty content as the empty list, parse otherwise; each failure mode
raises its exception. -/
def fetch_and_parse (o : FetchOutcome) : Except PyError (List UsageRecord) :=
  match o with
  | .absent => .error .notFound
  | .transportError => .error .other
  | .emptyContent => .ok []
  | .malformed => .error .jsonDecode
  | .ok records => .ok records

/-- `load_initial_data` (app.py lines 57-88): with no api client it returns at
once, leaving `usage_data_cache` at its initial `[]`; otherwise every
exception class from the fetch is caught and mapped to the empty cache, so
the function never re-raises. -/
def load_initial_data (hasApi : Bool) (o : FetchOutcome) :
    Except PyError (List UsageRecord) :=
  if hasApi = false then .ok []
  else
    match fetch_and_parse o with
    | .ok records => .ok records
    | .error .jsonDecode => .ok []
    | .error .notFound => .ok []
    | .error .other => .ok []

/-! ### Execution traces -/

/-- A request-path event: one `check_credit` or one `use_credit` call. -/
inductive CacheEvent where
  | check (uid : String) (now : Int)
  | consume (uid : String) (now : Int)
  deriving Repr, DecidableEq

/-- Apply a request-path event to the system state (requests never touch the
remote document). -/
def applyCacheEvent (e : CacheEvent) (s : SysState) : SysState :=
  match e with
  | .check uid now => { s with app := (check_credit uid now s.app).2 }
  | .consume uid now => { s with app := (use_credit uid now s.app).2 }

/-- Run a list of request-path events left to right. -/
def runCacheEvents (es : List CacheEvent) (s : SysState) : SysState :=
  es.foldl (fun t e => applyCacheEvent e t) s

/-- A system event: a request-path event or one scheduler publish cycle. -/
inductive SysEvent where
  | req (e : CacheEvent)
  | publish (uploadFails : Bool)
  deriving Repr, DecidableEq

/-- One step of the whole system. -/
def sysStep (hasApi : Bool) (e : SysEvent) (s : SysState) : SysState :=
  match e with
  | .req e => applyCacheEvent e s
  | .publish uploadFails => persist_data_to_hub hasApi uploadFails s

/-- Run a list of system events left to right. -/
def runSys (hasApi : Bool) (es : List SysEvent) (s : SysState) : SysState :=
  es.foldl (fun t e => sysStep hasApi e t) s

/-- State right after startup: the cache as loaded, flag clear, the remote
document being exactly what the cache was loaded from. -/
def initSys (c0 : List UsageRecord) : SysState :=
  { app := { cache := c0, dirty := false }, remote := c0, attempts := 0 }

/-- Run a sequence of `use_credit` calls for one identifier at the given
times, collecting the responses in order. -/
def runUses (uid : String) (ts : List Int) (s : AppState) :
    List UseResult × AppState :=
  match ts with
  | [] => ([], s)
  | t :: ts' =>
      let p := use_credit uid t s
      let q := runUses uid ts' p.2
      (p.1 :: q.1, q.2)

/-! ### Basic lemmas about the cache primitives -/

theorem findRecord_id {cache : List UsageRecord} {uid : String}
    {r : UsageRecord} (h : findRecord cache uid = some r) : r.id = uid := by
  have h' := List.find?_some h
  exact of_decide_eq_true h'

theorem findRecord_updateFirst_self {cache : List UsageRecord} {uid : String}
    {r x : UsageRecord} (h : findRecord cache uid = some r) (hx : x.id = uid) :
    findRecord (updateFirst cache uid x) uid = some x := by
  induction cache with
  | nil => simp [findRecord] at h
  | cons y ys ih =>
      by_cases hy : y.id = uid
      · simp [updateFirst, hy, findRecord, List.find?_cons_of_pos, hx]
      · have h' : findRecord ys uid = some r := by
          simpa [findRecord, List.find?_cons_of_neg, hy] using h
        simpa [updateFirst, hy, findRecord, List.find?_cons_of_neg] using ih h'

theorem mem_updateFirst {cache : List UsageRecord} {uid : String}
    {x y : UsageRecord} (h : y ∈ updateFirst cache uid x) :
    y = x ∨ y ∈ cache := by
  induction cache with
  | nil => simp [updateFirst] at h
  | cons z zs ih =>
      by_cases hz : z.id = uid
      · simp only [updateFirst, if_pos hz, List.mem_cons] at h
        rcases h with h | h
        · exact Or.inl h
        · exact Or.inr (List.mem_cons_of_mem _ h)
      · simp only [updateFirst, if_neg hz, List.mem_cons] at h
        rcases h with h | h
        · exact Or.inr (h ▸ List.mem_cons_self _ _)
        · rcases ih h with h' | h'
          · exact Or.inl h'
          · exact Or.inr (List.mem_cons_of_mem _ h')

theorem findRecord_append_of_none {cache : List UsageRecord} {uid : String}
    {r : UsageRecord} (h : findRecord cache uid = none) (hr : r.id = uid) :
    findRecord (cache ++ [r]) uid = some r := by
  induction cache with
  | nil => simp [findRecord, List.find?_cons_of_pos, hr]
  | cons y ys ih =>
      have hy : ¬ y.id = uid := by
        intro hy
        simp [findRecord, List.find?_cons_of_pos, hy] at h
      have h' : findRecord ys uid = none := by
        simpa [findRecord, List.find?_cons_of_neg, hy] using h
      simpa [findRecord, List.cons_append, List.find?_cons_of_neg, hy]
        using ih h'

theorem updateFirst_updateFirst {cache : List UsageRecord} {uid : String}
    {x y : UsageRecord} (hx : x.id = uid) :
    updateFirst (updateFirst cache uid x) uid y = updateFirst cache uid y := by
  induction cache with
  | nil => simp [updateFirst]
  | cons z zs ih =>
      by_cases hz : z.id = uid
      · simp [updateFirst, hz, hx]
      · simp [updateFirst, hz, ih]

/-! ### Unfolding lemmas for the two handlers -/

theorem check_credit_none {uid : String} {now : Int} {s : AppState}
    (h : findRecord s.cache uid = none) :
    check_credit uid now s =
      ({ credits_remaining := USAGE_LIMIT, limit_reached := false,
         reset_timestamp := 0 }, s) := by
  simp [check_credit, h]

theorem check_credit_state {uid : String} {now : Int} {s : AppState}
    {r : UsageRecord} (h : findRecord s.cache uid = some r) :
    (check_credit uid now s).2 =
      { cache := if resetFires now r then
                   updateFirst s.cache uid (resetRecord now r)
                 else s.cache,
        dirty := s.dirty || resetFires now r } := by
  by_cases hc : max 0 (USAGE_LIMIT - (resetRecord now r).count) = 0 <;>
    simp [check_credit, h, hc]

theorem check_credit_dirty_mono {uid : String} {now : Int} {s : AppState}
    (h : s.dirty = true) : (check_credit uid now s).2.dirty = true := by
  rcases hfind : findRecord s.cache uid with _ | r
  · rw [check_credit_none hfind]; exact h
  · rw [check_credit_state hfind]; simp [h]

theorem use_credit_dirty_mono {uid : String} {now : Int} {s : AppState}
    (h : s.dirty = true) : (use_credit uid now s).2.dirty = true := by
  rcases hfind : findRecord s.cache uid with _ | r
  · simp [use_credit, hfind]
  · by_cases hlim : USAGE_LIMIT ≤ (resetRecord now r).count <;>
      simp [use_credit, hfind, hlim, h]

theorem check_credit_dirty_false {uid : String} {now : Int} {s : AppState}
    (h : (check_credit uid now s).2.dirty = false) :
    (check_credit uid now s).2.cache = s.cache ∧ s.dirty = false := by
  rcases hfind : findRecord s.cache uid with _ | r
  · rw [check_credit_none hfind] at h ⊢; exact ⟨rfl, h⟩
  · rw [check_credit_state hfind] at h ⊢
    simp only [Bool.or_eq_false_iff] at h
    simp [h.1, h.2]

theorem use_credit_dirty_false {uid : String} {now : Int} {s : AppState}
    (h : (use_credit uid now s).2.dirty = false) :
    (use_credit uid now s).2.cache = s.cache ∧ s.dirty = false := by
  rcases hfind : findRecord s.cache uid with _ | r
  · simp [use_credit, hfind] at h
  · by_cases hlim : USAGE_LIMIT ≤ (resetRecord now r).count
    · by_cases hrs : r.week_start < now - one_week_seconds
      · exfalso
        rw [resetRecord, if_pos hrs] at hlim
        exact absurd hlim (by norm_num [USAGE_LIMIT])
      · have hfires : resetFires now r = false := by
          simp [resetFires, hrs]
        simp only [use_credit, hfind, hfires, hlim, if_pos, if_neg,
          Bool.false_eq_true, ite_false] at h ⊢
        exact ⟨trivial, h⟩
    · simp [use_credit, hfind, hlim] at h

theorem check_credit_reset {uid : String} {now : Int} {s : AppState}
    {r : UsageRecord} (h : findRecord s.cache uid = some r)
    (hrs : r.week_start < now - one_week_seconds) :
    check_credit uid now s =
      ({ credits_remaining := USAGE_LIMIT, limit_reached := false,
         reset_timestamp := 0 },
       { cache := updateFirst s.cache uid
                    { r with count := 0, week_start := now },
         dirty := true }) := by
  simp [check_credit, h, resetFires, resetRecord, hrs, USAGE_LIMIT]

theorem check_credit_no_reset {uid : String} {now : Int} {s : AppState}
    {r : UsageRecord} (h : findRecord s.cache uid = some r)
    (hns : ¬ r.week_start < now - one_week_seconds) :
    check_credit uid now s =
      (if max 0 (USAGE_LIMIT - r.count) = 0 then
         ({ credits_remaining := 0, limit_reached := true,
            reset_timestamp := r.week_start + one_week_seconds }, s)
       else
         ({ credits_remaining := max 0 (USAGE_LIMIT - r.count),
            limit_reached := false, reset_timestamp := 0 }, s)) := by
  by_cases hc : max 0 (USAGE_LIMIT - r.count) = 0 <;>
    simp [check_credit, h, resetFires, resetRecord, hns, hc]

theorem use_credit_reset {uid : String} {now : Int} {s : AppState}
    {r : UsageRecord} (h : findRecord s.cache uid = some r)
    (hrs : r.week_start < now - one_week_seconds) :
    use_credit uid now s =
      (.success 4,
       { cache := updateFirst s.cache uid
                    { r with count := 1, week_start := now },
         dirty := true }) := by
  have hid : r.id = uid := findRecord_id h
  have hcomp := @updateFirst_updateFirst s.cache uid
    { r with count := 0, week_start := now }
    { r with count := 1, week_start := now } hid
  simp [use_credit, h, resetFires, resetRecord, hrs, USAGE_LIMIT, hcomp]

theorem use_credit_limit {uid : String} {now : Int} {s : AppState}
    {r : UsageRecord} (h : findRecord s.cache uid = some r)
    (hns : ¬ r.week_start < now - one_week_seconds)
    (hc : USAGE_LIMIT ≤ r.count) :
    use_credit uid now s =
      (.limit_reached 0 (r.week_start + one_week_seconds), s) := by
  simp [use_credit, h, resetFires, resetRecord, hns, hc]

theorem use_credit_success_no_reset {uid : String} {now : Int} {s : AppState}
    {r : UsageRecord} (h : findRecord s.cache uid = some r)
    (hns : ¬ r.week_start < now - one_week_seconds)
    (hc : r.count < USAGE_LIMIT) :
    use_credit uid now s =
      (.success (USAGE_LIMIT - (r.count + 1)),
       { cache := updateFirst s.cache uid { r with count := r.count + 1 },
         dirty := true }) := by
  simp [use_credit, h, resetFires, resetRecord, hns, not_le.mpr hc]

theorem use_credit_fresh {uid : String} {now : Int} {s : AppState}
    (h : findRecord s.cache uid = none) :
    use_credit uid now s =
      (.success (USAGE_LIMIT - 1),
       { cache := s.cache ++ [{ id := uid, count := 1, week_start := now }],
         dirty := true }) := by
  simp [use_credit, h]

/-! ### Claim theorems -/

/-- Claim C4: a `use_credit` call on an identifier whose record has
`count >= USAGE_LIMIT` inside a live window returns `limit_reached` with
`credits_remaining = 0` and `reset_timestamp = week_start + 7 days`, and the
returned state is exactly the input state: the record, every other record,
and the dirty flag are unchanged — a denied attempt mutates nothing. -/
theorem C4_denied_attempt_frame (uid : String) (now : Int) (s : AppState)
    (r : UsageRecord) (h : findRecord s.cache uid = some r)
    (hc : USAGE_LIMIT ≤ r.count)
    (hns : ¬ r.week_start < now - one_week_seconds) :
    use_credit uid now s =
      (.limit_reached 0 (r.week_start + one_week_seconds), s) :=
  use_credit_limit h hns hc

/-- Witness for C4 at a concrete two-record cache. -/
theorem C4_denied_attempt_frame_witness :
    use_credit "u4" 50
        ⟨[⟨"u4", 5, 0⟩, ⟨"v", 1, 3⟩], false⟩ =
      (.limit_reached 0 ((0 : Int) + one_week_seconds),
       ⟨[⟨"u4", 5, 0⟩, ⟨"v", 1, 3⟩], false⟩) :=
  C4_denied_attempt_frame "u4" 50 ⟨[⟨"u4", 5, 0⟩, ⟨"v", 1, 3⟩], false⟩
    ⟨"u4", 5, 0⟩ (by decide) (by decide) (by decide)

/-- Claim C9: a `check_credit` call on an identifier with no record returns
`credits_remaining = USAGE_LIMIT`, `limit_reached = false`,
`reset_timestamp = 0` and leaves the state (cache and dirty flag) exactly as
it was; in particular no record is created. -/
theorem C9_check_unknown_identifier (uid : String) (now : Int) (s : AppState)
    (h : findRecord s.cache uid = none) :
    check_credit uid now s =
      ({ credits_remaining := USAGE_LIMIT, limit_reached := false,
         reset_timestamp := 0 }, s) :=
  check_credit_none h

/-- Witness for C9 on a cache holding an unrelated record. -/
theorem C9_check_unknown_identifier_witness :
    check_credit "nobody" 1000 ⟨[⟨"v", 3, 7⟩], true⟩ =
      ({ credits_remaining := USAGE_LIMIT, limit_reached := false,
         reset_timestamp := 0 }, ⟨[⟨"v", 3, 7⟩], true⟩) :=
  C9_check_unknown_identifier "nobody" 1000 ⟨[⟨"v", 3, 7⟩], true⟩ (by decide)

/-- Claim C8: the startup load never propagates an error: a missing document,
an empty document, a malformed document, and any other transport failure all
yield the empty cache, while a well-formed non-empty document yields exactly
its parsed records. -/
theorem C8_load_initial_data_never_raises :
    load_initial_data true .absent = .ok [] ∧
    load_initial_data true .emptyContent = .ok [] ∧
    load_initial_data true .malformed = .ok [] ∧
    load_initial_data true .transportError = .ok [] ∧
    ∀ records : List UsageRecord,
      load_initial_data true (.ok records) = .ok records :=
  ⟨rfl, rfl, rfl, rfl, fun _ => rfl⟩

/-- Claim C10: with no remote-store client (`api is None`), a publish cycle is
a complete no-op — no upload is attempted, the dirty flag and cache are
untouched — and consequently a set dirty flag stays set across any number of
cycles in this degraded mode. -/
theorem C10_no_api_publish_noop (f : Bool) (s : SysState) (fs : List Bool)
    (h : s.app.dirty = true) :
    persist_data_to_hub false f s = s ∧
    (fs.foldl (fun t u => persist_data_to_hub false u t) s).app.dirty
      = true := by
  have noop : ∀ (u : Bool) (t : SysState),
      persist_data_to_hub false u t = t := by
    intro u t; simp [persist_data_to_hub]
  have hfold : ∀ (l : List Bool) (t : SysState),
      l.foldl (fun t u => persist_data_to_hub false u t) t = t := by
    intro l
    induction l with
    | nil => intro t; rfl
    | cons u us ih =>
        intro t
        rw [List.foldl_cons, noop]
        exact ih t
  exact ⟨noop f s, by rw [hfold]; exact h⟩

/-- Witness for C10 on a dirty one-record state and two failed-then-ok
cycles. -/
theorem C10_no_api_publish_noop_witness :
    persist_data_to_hub false true ⟨⟨[⟨"u", 2, 0⟩], true⟩, [], 0⟩ =
      ⟨⟨[⟨"u", 2, 0⟩], true⟩, [], 0⟩ ∧
    (([true, false] : List Bool).foldl
        (fun t u => persist_data_to_hub false u t)
        ⟨⟨[⟨"u", 2, 0⟩], true⟩, [], 0⟩).app.dirty = true :=
  C10_no_api_publish_noop true ⟨⟨[⟨"u", 2, 0⟩], true⟩, [], 0⟩ [true, false]
    (by decide)

/-- Claim C2 counterexample: at the exact window boundary
`now = week_start + 7*24*3600` (record `{"u2", count 5, week_start 0}`,
`now = 604800`) the code does *not* reset: `check_credit` returns
`credits_remaining = 0` and leaves the record as it was, contradicting the
claimed `now >= week_start + 7*24*3600` trigger. -/
theorem C2_counterexample :
    ¬ ((check_credit "u2" 604800 ⟨[⟨"u2", 5, 0⟩], false⟩).1.credits_remaining
          = 5 ∧
       (check_credit "u2" 604800 ⟨[⟨"u2", 5, 0⟩], false⟩).2.cache
          = [⟨"u2", 0, 604800⟩]) := by
  decide

/-- Claim C2 (amended): the rolling-window reset fires exactly when
`now` *strictly* exceeds `week_start + 7*24*3600` (the code tests
`week_start < now - one_week_seconds`); when it fires, both handlers first
set `count = 0` and `week_start = now` and only then evaluate the quota, so
`check_credit` reports a full quota and `use_credit` consumes from a fresh
window; the stored example (record 8 days old with `count = 5`) yields
`credits_remaining = 5`, `limit_reached = false`, and a record whose
`week_start` is `now`. -/
theorem C2_rolling_window_reset_strict (uid : String) (now : Int)
    (s : AppState) (r : UsageRecord) (h : findRecord s.cache uid = some r)
    (hrs : r.week_start < now - one_week_seconds) :
    check_credit uid now s =
      ({ credits_remaining := USAGE_LIMIT, limit_reached := false,
         reset_timestamp := 0 },
       { cache := updateFirst s.cache uid
                    { r with count := 0, week_start := now },
         dirty := true }) ∧
    use_credit uid now s =
      (.success 4,
       { cache := updateFirst s.cache uid
                    { r with count := 1, week_start := now },
         dirty := true }) ∧
    check_credit "u2" (8 * 86400) ⟨[⟨"u2", 5, 0⟩], false⟩ =
      ({ credits_remaining := 5, limit_reached := false,
         reset_timestamp := 0 },
       ⟨[⟨"u2", 0, 8 * 86400⟩], true⟩) :=
  ⟨check_credit_reset h hrs, use_credit_reset h hrs, by decide⟩

/-- Witness for the amended C2 on a concrete one-record cache. -/
theorem C2_rolling_window_reset_strict_witness :
    check_credit "w" 700000 ⟨[⟨"w", 3, 0⟩], false⟩ =
      ({ credits_remaining := USAGE_LIMIT, limit_reached := false,
         reset_timestamp := 0 },
       { cache := updateFirst [⟨"w", 3, 0⟩] "w" ⟨"w", 0, 700000⟩,
         dirty := true }) ∧
    use_credit "w" 700000 ⟨[⟨"w", 3, 0⟩], false⟩ =
      (.success 4,
       { cache := updateFirst [⟨"w", 3, 0⟩] "w" ⟨"w", 1, 700000⟩,
         dirty := true }) ∧
    check_credit "u2" (8 * 86400) ⟨[⟨"u2", 5, 0⟩], false⟩ =
      ({ credits_remaining := 5, limit_reached := false,
         reset_timestamp := 0 },
       ⟨[⟨"u2", 0, 8 * 86400⟩], true⟩) :=
  C2_rolling_window_reset_strict "w" 700000 ⟨[⟨"w", 3, 0⟩], false⟩
    ⟨"w", 3, 0⟩ (by decide) (by decide)

/-- Claim C3 counterexample: for the record `{"u3", count 2, week_start 0}`
at `now = 100` the handler returns `reset_timestamp = 0`, not
`week_start + 7 days = 604800`, so the field does *not* equal
`week_start + 7 days` regardless of the limit. -/
theorem C3_counterexample :
    ¬ ((check_credit "u3" 100 ⟨[⟨"u3", 2, 0⟩], false⟩).1.reset_timestamp
        = 0 + one_week_seconds) := by
  decide

/-- Claim C3 (amended): for every `check_credit` call on an identifier with a
record, the returned `reset_timestamp` equals `week_start + 7 days` of the
(possibly just-reset) record *when the limit has been reached*, and is `0`
otherwise. -/
theorem C3_reset_timestamp_only_when_limited (uid : String) (now : Int)
    (s : AppState) (r : UsageRecord) (h : findRecord s.cache uid = some r) :
    (check_credit uid now s).1.reset_timestamp =
      if (check_credit uid now s).1.limit_reached then
        (resetRecord now r).week_start + one_week_seconds
      else 0 := by
  by_cases hrs : r.week_start < now - one_week_seconds
  · rw [check_credit_reset h hrs]
    simp
  · rw [check_credit_no_reset h hrs]
    by_cases hc : max 0 (USAGE_LIMIT - r.count) = 0 <;>
      simp [hc, resetRecord, hrs]

/-- Witness for the amended C3 on a limit-reached record. -/
theorem C3_reset_timestamp_only_when_limited_witness :
    (check_credit "u3" 10 ⟨[⟨"u3", 5, 0⟩], false⟩).1.reset_timestamp =
      if (check_credit "u3" 10 ⟨[⟨"u3", 5, 0⟩], false⟩).1.limit_reached then
        (resetRecord 10 ⟨"u3", 5, 0⟩).week_start + one_week_seconds
      else 0 :=
  C3_reset_timestamp_only_when_limited "u3" 10 ⟨[⟨"u3", 5, 0⟩], false⟩
    ⟨"u3", 5, 0⟩ (by decide)

/-- Claim C7 counterexample: starting from a cache holding a record loaded
from the remote document with `count = 10`, a `use_credit` call leaves that
record untouched (the attempt is denied), so immediately after the consume
operation its `count` is `10`, outside `[0, USAGE_LIMIT]`. -/
theorem C7_counterexample :
    (use_credit "u7" 0 ⟨[⟨"u7", 10, 0⟩], false⟩).2.cache = [⟨"u7", 10, 0⟩] ∧
    ¬ (0 ≤ (10 : Int) ∧ (10 : Int) ≤ USAGE_LIMIT) := by
  decide

/-- Claim C7 (amended): on every cache state whose record counts already lie
in `[0, USAGE_LIMIT]` — which covers every state the program itself builds,
but not arbitrary loaded documents — a `use_credit` call leaves every count
in `[0, USAGE_LIMIT]`; and the lazy reset sets `count` to `0` whenever a
record is accessed at a time strictly exceeding `week_start + 7 days`. -/
theorem C7_count_bounds_preserved (uid : String) (now : Int) (s : AppState)
    (hwf : ∀ r ∈ s.cache, 0 ≤ r.count ∧ r.count ≤ USAGE_LIMIT) :
    (∀ r ∈ (use_credit uid now s).2.cache,
        0 ≤ r.count ∧ r.count ≤ USAGE_LIMIT) ∧
    (∀ r : UsageRecord, r.week_start < now - one_week_seconds →
        (resetRecord now r).count = 0) := by
  constructor
  · rcases hfind : findRecord s.cache uid with _ | r0
    · rw [use_credit_fresh hfind]
      intro r hr
      rcases List.mem_append.mp hr with hr | hr
      · exact hwf r hr
      · rcases List.mem_singleton.mp hr with rfl
        exact ⟨by norm_num, by norm_num [USAGE_LIMIT]⟩
    · have hr0 : 0 ≤ r0.count ∧ r0.count ≤ USAGE_LIMIT :=
        hwf r0 (List.mem_of_find?_eq_some hfind)
      by_cases hrs : r0.week_start < now - one_week_seconds
      · rw [use_credit_reset hfind hrs]
        intro r hr
        rcases mem_updateFirst hr with rfl | hr
        · exact ⟨by norm_num, by norm_num [USAGE_LIMIT]⟩
        · exact hwf r hr
      · by_cases hlim : USAGE_LIMIT ≤ r0.count
        · rw [use_credit_limit hfind hrs hlim]
          exact hwf
        · rw [use_credit_success_no_reset hfind hrs (not_le.mp hlim)]
          intro r hr
          rcases mem_updateFirst hr with rfl | hr
          · have h1 := hr0.1
            have h2 := not_le.mp hlim
            simp only [USAGE_LIMIT] at h2 ⊢
            constructor <;> omega
          · exact hwf r hr
  · intro r hr
    simp [resetRecord, hr]

/-- Witness for the amended C7: a consume on a well-formed one-record cache
and a reset of an expired record. -/
theorem C7_count_bounds_preserved_witness :
    (use_credit "u" 0 ⟨[⟨"u", 2, 0⟩], false⟩).2.cache = [⟨"u", 3, 0⟩] ∧
    (0 ≤ (⟨"u", 3, 0⟩ : UsageRecord).count ∧
      (⟨"u", 3, 0⟩ : UsageRecord).count ≤ USAGE_LIMIT) ∧
    (resetRecord 700000 ⟨"u", 5, 0⟩).count = 0 :=
  ⟨by decide,
   (C7_count_bounds_preserved "u" 0 ⟨[⟨"u", 2, 0⟩], false⟩ (by decide)).1
     ⟨"u", 3, 0⟩ (by decide),
   (C7_count_bounds_preserved "u" 700000 ⟨[⟨"u", 2, 0⟩], false⟩ (by decide)).2
     ⟨"u", 5, 0⟩ (by decide)⟩

/-! ### Dirty-flag behaviour of the event layer -/

theorem applyCacheEvent_dirty_mono (e : CacheEvent) (t : SysState)
    (h : t.app.dirty = true) : (applyCacheEvent e t).app.dirty = true := by
  cases e with
  | check uid now => exact check_credit_dirty_mono h
  | consume uid now => exact use_credit_dirty_mono h

theorem applyCacheEvent_remote (e : CacheEvent) (t : SysState) :
    (applyCacheEvent e t).remote = t.remote := by
  cases e <;> rfl

theorem runCacheEvents_dirty_mono (es : List CacheEvent) (t : SysState)
    (h : t.app.dirty = true) : (runCacheEvents es t).app.dirty = true := by
  induction es generalizing t with
  | nil => exact h
  | cons e es ih =>
      have : runCacheEvents (e :: es) t
          = runCacheEvents es (applyCacheEvent e t) := rfl
      rw [this]
      exact ih _ (applyCacheEvent_dirty_mono e t h)

/-- Claim C5: when the upload raises, the publish cycle ends with the dirty
flag set again, the cache and the remote document untouched; and whatever
request-path events then happen before the next successful cycle, that cycle
uploads the cache as it is at retry time — a fresh snapshot, not the one that
failed. -/
theorem C5_failed_publish_rearms_and_retries_fresh (s : SysState)
    (evs : List CacheEvent) (h : s.app.dirty = true) :
    (persist_data_to_hub true true s).app.dirty = true ∧
    (persist_data_to_hub true true s).app.cache = s.app.cache ∧
    (persist_data_to_hub true true s).remote = s.remote ∧
    (persist_data_to_hub true false
        (runCacheEvents evs (persist_data_to_hub true true s))).remote =
      (runCacheEvents evs (persist_data_to_hub true true s)).app.cache := by
  have hfail : persist_data_to_hub true true s =
      { s with app := { s.app with dirty := true },
               attempts := s.attempts + 1 } := by
    simp [persist_data_to_hub, h]
  have hd2 : (runCacheEvents evs (persist_data_to_hub true true s)).app.dirty
      = true := by
    apply runCacheEvents_dirty_mono
    rw [hfail]
  refine ⟨by rw [hfail], by rw [hfail], by rw [hfail], ?_⟩
  set s2 := runCacheEvents evs (persist_data_to_hub true true s) with hs2
  simp [persist_data_to_hub, hd2]

/-- Witness for C5: a dirty one-record state, one further consume between the
failed and the successful cycle. -/
theorem C5_failed_publish_rearms_and_retries_fresh_witness :
    (persist_data_to_hub true true ⟨⟨[⟨"u", 1, 0⟩], true⟩, [], 0⟩).app.dirty
        = true ∧
    (persist_data_to_hub true true
        ⟨⟨[⟨"u", 1, 0⟩], true⟩, [], 0⟩).app.cache = [⟨"u", 1, 0⟩] ∧
    (persist_data_to_hub true true ⟨⟨[⟨"u", 1, 0⟩], true⟩, [], 0⟩).remote
        = [] ∧
    (persist_data_to_hub true false
        (runCacheEvents [.consume "u" 5]
          (persist_data_to_hub true true
            ⟨⟨[⟨"u", 1, 0⟩], true⟩, [], 0⟩))).remote =
      (runCacheEvents [.consume "u" 5]
        (persist_data_to_hub true true
          ⟨⟨[⟨"u", 1, 0⟩], true⟩, [], 0⟩)).app.cache :=
  C5_failed_publish_rearms_and_retries_fresh
    ⟨⟨[⟨"u", 1, 0⟩], true⟩, [], 0⟩ [.consume "u" 5] (by decide)

/-! ### The dirty-flag invariant over whole executions -/

theorem sysStep_inv (hasApi : Bool) (e : SysEvent) (s : SysState)
    (h : s.app.dirty = false → s.app.cache = s.remote) :
    (sysStep hasApi e s).app.dirty = false →
      (sysStep hasApi e s).app.cache = (sysStep hasApi e s).remote := by
  cases e with
  | req ce =>
      cases ce with
      | check uid now =>
          intro hd
          have hd' : (check_credit uid now s.app).2.dirty = false := hd
          obtain ⟨hcache, hdirty⟩ := check_credit_dirty_false hd'
          show (check_credit uid now s.app).2.cache = s.remote
          rw [hcache]
          exact h hdirty
      | consume uid now =>
          intro hd
          have hd' : (use_credit uid now s.app).2.dirty = false := hd
          obtain ⟨hcache, hdirty⟩ := use_credit_dirty_false hd'
          show (use_credit uid now s.app).2.cache = s.remote
          rw [hcache]
          exact h hdirty
  | publish u =>
      by_cases hcond : s.app.dirty = false ∨ hasApi = false
      · have : sysStep hasApi (.publish u) s = s := by
          simp only [sysStep, persist_data_to_hub, if_pos hcond]
        rw [this]
        exact h
      · push_neg at hcond
        cases u with
        | true =>
            intro hd
            exfalso
            have : (persist_data_to_hub hasApi true s).app.dirty = true := by
              simp [persist_data_to_hub, if_neg, hcond.1, hcond.2]
            exact absurd (this ▸ hd) (by simp)
        | false =>
            intro hd
            show (persist_data_to_hub hasApi false s).app.cache
                = (persist_data_to_hub hasApi false s).remote
            simp [persist_data_to_hub, hcond.1, hcond.2]

theorem runSys_inv (hasApi : Bool) (es : List SysEvent) (s : SysState)
    (h : s.app.dirty = false → s.app.cache = s.remote) :
    (runSys hasApi es s).app.dirty = false →
      (runSys hasApi es s).app.cache = (runSys hasApi es s).remote := by
  induction es generalizing s with
  | nil => exact h
  | cons e es ih =>
      have hstep : runSys hasApi (e :: es) s
          = runSys hasApi es (sysStep hasApi e s) := rfl
      rw [hstep]
      exact ih _ (sysStep_inv hasApi e s h)

theorem sysStep_dirty_drop (hasApi : Bool) (e : SysEvent) (s : SysState)
    (h : s.app.dirty = true)
    (h2 : (sysStep hasApi e s).app.dirty = false) :
    hasApi = true ∧ e = SysEvent.publish false := by
  cases e with
  | req ce =>
      exfalso
      have := applyCacheEvent_dirty_mono ce s h
      rw [show (sysStep hasApi (.req ce) s) = applyCacheEvent ce s from rfl]
        at h2
      rw [this] at h2
      exact absurd h2 (by simp)
  | publish u =>
      by_cases hapi : hasApi = false
      · exfalso
        have : sysStep hasApi (.publish u) s = s := by
          simp [sysStep, persist_data_to_hub, hapi]
        rw [this] at h2
        rw [h] at h2
        exact absurd h2 (by simp)
      · have hapi' : hasApi = true := by
          cases hasApi
          · exact absurd rfl hapi
          · rfl
        cases u with
        | true =>
            exfalso
            have : (persist_data_to_hub hasApi true s).app.dirty = true := by
              simp [persist_data_to_hub, h, hapi']
            have h2' : (persist_data_to_hub hasApi true s).app.dirty = false :=
              h2
            rw [this] at h2'
            exact absurd h2' (by simp)
        | false => exact ⟨hapi', rfl⟩

/-- Claim C6: along every execution (any event sequence from the startup
state), whenever the dirty flag is clear the cache coincides with the last
successfully uploaded document — the flag is never clear while unpersisted
divergence exists; and from any reached state where the flag is set, the only
step that can clear it is a publish cycle whose upload succeeds with a live
api client. -/
theorem C6_dirty_flag_no_silent_loss (hasApi : Bool)
    (c0 : List UsageRecord) (es : List SysEvent) (e : SysEvent) :
    ((runSys hasApi es (initSys c0)).app.dirty = false →
      (runSys hasApi es (initSys c0)).app.cache
        = (runSys hasApi es (initSys c0)).remote) ∧
    ((runSys hasApi es (initSys c0)).app.dirty = true →
      (sysStep hasApi e (runSys hasApi es (initSys c0))).app.dirty = false →
      hasApi = true ∧ e = SysEvent.publish false) :=
  ⟨runSys_inv hasApi es (initSys c0) (fun _ => rfl),
   fun h h2 => sysStep_dirty_drop hasApi e _ h h2⟩

/-- Witness for C6: the empty trace keeps the loaded cache equal to the
remote document, and from a dirtied state only a successful publish clears
the flag. -/
theorem C6_dirty_flag_no_silent_loss_witness :
    ((runSys true [] (initSys [⟨"a", 1, 0⟩])).app.cache
        = (runSys true [] (initSys [⟨"a", 1, 0⟩])).remote) ∧
    (true = true ∧ SysEvent.publish false = SysEvent.publish false) :=
  ⟨(C6_dirty_flag_no_silent_loss true [⟨"a", 1, 0⟩] [] (.publish false)).1
      (by decide),
   (C6_dirty_flag_no_silent_loss true []
      [.req (.consume "u" 0)] (.publish false)).2 (by decide) (by decide)⟩

/-! ### The quota-monotonicity argument -/

theorem countP_range_lt (n k : Nat) :
    (List.range n).countP (fun i => decide (i < k)) = min n k := by
  induction n with
  | zero => simp
  | succ n ih =>
      rw [List.range_succ, List.countP_append, ih, List.countP_cons]
      by_cases h : n < k <;> simp [h] <;> omega

theorem runUses_shape (uid : String) (t0 : Int) (ts : List Int) :
    ∀ (s : AppState) (c : Nat), c ≤ 5 →
    findRecord s.cache uid = some ⟨uid, (c : Int), t0⟩ →
    (∀ t ∈ ts, t ≤ t0 + one_week_seconds) →
    (runUses uid ts s).1 =
      (List.range ts.length).map (fun i =>
        if c + i < 5 then UseResult.success (5 - ((c : Int) + (i : Int) + 1))
        else UseResult.limit_reached 0 (t0 + one_week_seconds)) := by
  induction ts with
  | nil => intro s c _ _ _; rfl
  | cons t ts ih =>
      intro s c hc hfind hts
      have ht : t ≤ t0 + one_week_seconds := hts t (List.mem_cons_self _ _)
      have hts' : ∀ u ∈ ts, u ≤ t0 + one_week_seconds :=
        fun u hu => hts u (List.mem_cons_of_mem _ hu)
      have hrs : ¬ (⟨uid, (c : Int), t0⟩ : UsageRecord).week_start
          < t - one_week_seconds := by
        show ¬ t0 < t - one_week_seconds
        omega
      have hcons1 : (runUses uid (t :: ts) s).1
          = (use_credit uid t s).1
              :: (runUses uid ts (use_credit uid t s).2).1 := rfl
      rw [hcons1, List.length_cons, List.range_succ_eq_map, List.map_cons,
        List.map_map]
      by_cases h5 : c < 5
      · have hlt : (⟨uid, (c : Int), t0⟩ : UsageRecord).count < USAGE_LIMIT := by
          show (c : Int) < USAGE_LIMIT
          simp only [USAGE_LIMIT]
          exact_mod_cast h5
        have huse := use_credit_success_no_reset hfind hrs hlt
        have hfind2 : findRecord (use_credit uid t s).2.cache uid
            = some ⟨uid, ((c + 1 : Nat) : Int), t0⟩ := by
          rw [huse]
          have := @findRecord_updateFirst_self s.cache uid
            ⟨uid, (c : Int), t0⟩
            { (⟨uid, (c : Int), t0⟩ : UsageRecord) with
                count := (⟨uid, (c : Int), t0⟩ : UsageRecord).count + 1 }
            hfind rfl
          rw [this]
          congr 1
        have htail := ih (use_credit uid t s).2 (c + 1) (by omega) hfind2 hts'
        rw [htail]
        congr 1
        · rw [huse]
          have : c + 0 < 5 := by omega
          rw [if_pos this]
          congr 1
        · refine List.map_congr_left ?_
          intro i _
          simp only [Function.comp, Nat.succ_eq_add_one]
          rw [show c + (i + 1) = c + 1 + i from by omega]
          by_cases hlt2 : c + 1 + i < 5
          · rw [if_pos hlt2, if_pos hlt2]
            congr 1
            push_cast
            ring
          · rw [if_neg hlt2, if_neg hlt2]
      · have hge : USAGE_LIMIT ≤ (⟨uid, (c : Int), t0⟩ : UsageRecord).count := by
          show USAGE_LIMIT ≤ (c : Int)
          simp only [USAGE_LIMIT]
          exact_mod_cast (by omega : 5 ≤ c)
        have huse := use_credit_limit hfind hrs hge
        have htail := ih (use_credit uid t s).2 c hc (by rw [huse]; exact hfind)
          hts'
        rw [htail]
        congr 1
        · rw [huse]
          rw [if_neg (by omega : ¬ c + 0 < 5)]
        · refine List.map_congr_left ?_
          intro i _
          simp only [Function.comp, Nat.succ_eq_add_one]
          rw [if_neg (by omega : ¬ c + (i + 1) < 5),
            if_neg (by omega : ¬ c + i < 5)]

/-- Claim C1: starting from a cache with no record for the identifier (or a
record with `count = 0` at the window start), a sequence of sequential
`use_credit` calls whose times stay within one 7-day window of the first call
yields at most `5` successes; every call at position `5` or later returns
`limit_reached` with `credits_remaining = 0`; and in the concrete six-call
scenario the results are five successes then `limit_reached`, after which
`check_credit` reports `credits_remaining = 0` and `limit_reached = true`. -/
theorem C1_quota_monotonicity (uid : String) (t0 : Int) (ts : List Int)
    (s : AppState)
    (hstart : findRecord s.cache uid = none ∨
              findRecord s.cache uid = some ⟨uid, 0, t0⟩)
    (hts : ∀ t ∈ ts, t ≤ t0 + one_week_seconds) :
    ((runUses uid (t0 :: ts) s).1.countP UseResult.isSuccess ≤ 5) ∧
    (∀ i : Nat, 5 ≤ i → i < (runUses uid (t0 :: ts) s).1.length →
      (runUses uid (t0 :: ts) s).1[i]?
        = some (UseResult.limit_reached 0 (t0 + one_week_seconds))) ∧
    (runUses "u1" [0, 0, 0, 0, 0, 0] ⟨[], false⟩).1
        = [.success 4, .success 3, .success 2, .success 1, .success 0,
           .limit_reached 0 604800] ∧
    check_credit "u1" 0 (runUses "u1" [0, 0, 0, 0, 0, 0] ⟨[], false⟩).2
        = ({ credits_remaining := 0, limit_reached := true,
             reset_timestamp := 604800 }, ⟨[⟨"u1", 5, 0⟩], true⟩) := by
  have hshape : (runUses uid (t0 :: ts) s).1 =
      (List.range (ts.length + 1)).map (fun i : Nat =>
        if i < 5 then UseResult.success (5 - ((i : Int) + 1))
        else UseResult.limit_reached 0 (t0 + one_week_seconds)) := by
    rcases hstart with hnone | hzero
    · have hcons1 : (runUses uid (t0 :: ts) s).1
          = (use_credit uid t0 s).1
              :: (runUses uid ts (use_credit uid t0 s).2).1 := rfl
      have huse := @use_credit_fresh uid t0 s hnone
      have hfind1 : findRecord (use_credit uid t0 s).2.cache uid
          = some ⟨uid, ((1 : Nat) : Int), t0⟩ := by
        rw [huse, Nat.cast_one]
        exact findRecord_append_of_none hnone rfl
      have htail := runUses_shape uid t0 ts (use_credit uid t0 s).2 1
        (by omega) hfind1 hts
      rw [hcons1, htail, List.range_succ_eq_map, List.map_cons, List.map_map]
      congr 1
      · rw [huse]
        rw [if_pos (by omega : (0 : Nat) < 5)]
        norm_num [USAGE_LIMIT]
      · refine List.map_congr_left ?_
        intro i _
        simp only [Function.comp, Nat.succ_eq_add_one]
        by_cases hlt : i + 1 < 5
        · rw [if_pos (by omega : 1 + i < 5), if_pos hlt]
          congr 1
          push_cast
          ring
        · rw [if_neg (by omega : ¬ 1 + i < 5), if_neg hlt]
    · have hzero' : findRecord s.cache uid
          = some ⟨uid, ((0 : Nat) : Int), t0⟩ := by
        rw [Nat.cast_zero]
        exact hzero
      have hall : ∀ t ∈ (t0 :: ts), t ≤ t0 + one_week_seconds := by
        intro t htmem
        rcases List.mem_cons.mp htmem with rfl | htmem
        · have : (0 : Int) < one_week_seconds := by norm_num [one_week_seconds]
          omega
        · exact hts t htmem
      have hrun := runUses_shape uid t0 (t0 :: ts) s 0 (by omega) hzero' hall
      rw [hrun, List.length_cons]
      refine List.map_congr_left ?_
      intro i _
      by_cases hlt : i < 5
      · rw [if_pos (by omega : 0 + i < 5), if_pos hlt]
        congr 1
        push_cast
        ring
      · rw [if_neg (by omega : ¬ 0 + i < 5), if_neg hlt]
  refine ⟨?_, ?_, by decide, by decide⟩
  · rw [hshape, List.countP_map]
    have hpe : (UseResult.isSuccess ∘ fun i : Nat =>
        if i < 5 then UseResult.success (5 - ((i : Int) + 1))
        else UseResult.limit_reached 0 (t0 + one_week_seconds))
        = fun i : Nat => decide (i < 5) := by
      funext i
      by_cases hlt : i < 5 <;> simp [UseResult.isSuccess, hlt]
    rw [hpe, countP_range_lt]
    omega
  · intro i h5 hlen
    rw [hshape] at hlen ⊢
    rw [List.getElem?_map]
    rw [List.length_map, List.length_range] at hlen
    rw [List.getElem?_range hlen]
    simp only [Option.map_some']
    rw [if_neg (by omega : ¬ i < 5)]

/-- Witness for C1: three calls inside one window from an empty cache. -/
theorem C1_quota_monotonicity_witness :
    (runUses "z" (10 :: [20, 30]) ⟨[], false⟩).1.countP
      UseResult.isSuccess ≤ 5 :=
  (C1_quota_monotonicity "z" 10 [20, 30] ⟨[], false⟩
    (Or.inl (by decide)) (by decide)).1

end App
